import Mathlib

/-!
Shallow embedding of `src/lib/device.py` (the pyepics `Device` class).

The Python class wraps an external EPICS client library.  The external
library is modelled as an environment `Env` that, given the history of
external interactions (a trace of `Event`s), decides the outcome of each
call: constructing a PV handle for a fully-qualified name (`epics.PV(...)`),
writing through a handle (`pv.put(...)`) and reading through a handle
(`pv.get(...)`).  Each outcome is an `Except`, so a raised exception of the
external library is an `Except.error` value that the wrapper either
propagates or not.  Handles are identified by natural numbers chosen by the
environment; the device stores them in an association list `pvs`, the model
of the Python dict `self._pvs` (insertion at the end, first-match lookup,
keys unique because insertion happens only when the key is absent).

Device methods are state-passing functions: they take the device, the trace
so far, and return the result (`Except`), the updated device and the updated
trace.  The value written by `put` has an arbitrary type `V`; the results of
the external write and read operations have arbitrary types `R` and `G`;
errors have an arbitrary type `E`.  The float `timeout` argument only passes
through unchanged, so it is modelled exactly as a rational number.
-/

deriving instance DecidableEq for Except

/-- One interaction with the external EPICS library: constructing a handle
for a fully-qualified PV name, writing a value through a handle, or reading
through a handle. -/
inductive Event (V : Type) where
  | create (name : String)
  | write (h : Nat) (value : V) (wait : Bool) (timeout : Rat)
  | read (h : Nat) (as_string : Bool)
deriving DecidableEq

/-- The external EPICS library, modelled as the outcome of each kind of call
as a function of the interaction history.  `createRes` answers
`epics.PV(name)` with a handle or an exception; `putRes` answers
`pv.put(value, wait=wait, timeout=timeout)`; `getRes` answers
`pv.get(as_string=as_string)`. -/
structure Env (V R G E : Type) where
  createRes : List (Event V) → String → Except E Nat
  putRes : List (Event V) → Nat → V → Bool → Rat → Except E R
  getRes : List (Event V) → Nat → Bool → Except E G

/-- The `Device` state: `pfx` models the Python attribute `self.__prefix__`
(optional, `None` when absent) and `pvs` models the dict `self._pvs` mapping
fully-qualified PV names to handles. -/
structure Device where
  pfx : Option String
  pvs : List (String × Nat)
deriving DecidableEq

/-- Dict lookup on the model of `self._pvs`: the handle stored under a
fully-qualified name, or `none` when `pvname not in self._pvs`. -/
def lookupName (n : String) : List (String × Nat) → Option Nat
  | [] => none
  | (k, h) :: rest => if n = k then some h else lookupName n rest

/-- The fully-qualified PV name computed at the start of `Device.PV`:
`pvname = attr; if self.__prefix__ is not None: pvname = "%s%s" % (self.__prefix__, attr)`. -/
def Device.fullName (d : Device) (attr : String) : String :=
  match d.pfx with
  | none => attr
  | some p => p ++ attr

/-- The method `Device.PV(self, attr)`: compute the fully-qualified name,
return the cached handle if present, otherwise call the external constructor
`epics.PV(pvname)` and store the new handle under `pvname` — unless the
constructor raises, in which case nothing is stored and the exception
propagates.  Returns the result, the updated device and the updated trace. -/
def Device.PV {V R G E : Type} (env : Env V R G E) (d : Device) (tr : List (Event V))
    (attr : String) : Except E Nat × Device × List (Event V) :=
  let pvname := d.fullName attr
  match lookupName pvname d.pvs with
  | some h => (Except.ok h, d, tr)
  | none =>
    match env.createRes tr pvname with
    | Except.ok h =>
        (Except.ok h, { d with pvs := d.pvs ++ [(pvname, h)] }, tr ++ [Event.create pvname])
    | Except.error e => (Except.error e, d, tr ++ [Event.create pvname])

/-- The method `Device.put(self, attr, value, wait=False, timeout=10.0)`:
`return self.PV(attr).put(value, wait=wait, timeout=timeout)`.  An exception
raised while resolving the handle propagates; otherwise the write outcome of
the external library is returned verbatim. -/
def Device.put {V R G E : Type} (env : Env V R G E) (d : Device) (tr : List (Event V))
    (attr : String) (value : V) (wait : Bool) (timeout : Rat) :
    Except E R × Device × List (Event V) :=
  match d.PV env tr attr with
  | (Except.error e, d1, tr1) => (Except.error e, d1, tr1)
  | (Except.ok h, d1, tr1) =>
      (env.putRes tr1 h value wait timeout, d1, tr1 ++ [Event.write h value wait timeout])

/-- `Device.put` with the Python default arguments omitted:
`wait=False, timeout=10.0`. -/
def Device.putDefault {V R G E : Type} (env : Env V R G E) (d : Device) (tr : List (Event V))
    (attr : String) (value : V) : Except E R × Device × List (Event V) :=
  d.put env tr attr value false 10

/-- The method `Device.get(self, attr, as_string=False)`:
`return self.PV(attr).get(as_string=as_string)`. -/
def Device.get {V R G E : Type} (env : Env V R G E) (d : Device) (tr : List (Event V))
    (attr : String) (as_string : Bool) : Except E G × Device × List (Event V) :=
  match d.PV env tr attr with
  | (Except.error e, d1, tr1) => (Except.error e, d1, tr1)
  | (Except.ok h, d1, tr1) =>
      (env.getRes tr1 h as_string, d1, tr1 ++ [Event.read h as_string])

/-- `Device.get` with the Python default argument omitted: `as_string=False`. -/
def Device.getDefault {V R G E : Type} (env : Env V R G E) (d : Device) (tr : List (Event V))
    (attr : String) : Except E G × Device × List (Event V) :=
  d.get env tr attr false

/-- The loop `for p in attrs: self.PV(p)` inside `Device.__init__`.  An
exception raised by `self.PV(p)` aborts the loop and propagates. -/
def initPVs {V R G E : Type} (env : Env V R G E) (d : Device) (tr : List (Event V)) :
    List String → Except E Unit × Device × List (Event V)
  | [] => (Except.ok (), d, tr)
  | a :: rest =>
    match d.PV env tr a with
    | (Except.ok _, d1, tr1) => initPVs env d1 tr1 rest
    | (Except.error e, d1, tr1) => (Except.error e, d1, tr1)

/-- The constructor `Device.__init__(self, prefix=None, attrs=None)`: store
the prefix, start with an empty cache, and eagerly resolve each name of
`attrs` when `attrs` is not `None`.  When resolution raises, the exception
propagates out of the constructor and no device is produced. -/
def Device.init {V R G E : Type} (env : Env V R G E) (tr : List (Event V))
    (pfx : Option String) (attrs : Option (List String)) :
    Except E Device × List (Event V) :=
  let d : Device := { pfx := pfx, pvs := [] }
  match attrs with
  | none => (Except.ok d, tr)
  | some l =>
    match initPVs env d tr l with
    | (Except.ok _, d1, tr1) => (Except.ok d1, tr1)
    | (Except.error e, _, tr1) => (Except.error e, tr1)

/-- Number of external constructor invocations for a given fully-qualified
name recorded in a trace. -/
def countCreate {V : Type} (n : String) : List (Event V) → Nat
  | [] => 0
  | Event.create m :: rest => (if m = n then 1 else 0) + countCreate n rest
  | Event.write _ _ _ _ :: rest => countCreate n rest
  | Event.read _ _ :: rest => countCreate n rest

/-- An external library that never fails: handles are numbered by the length
of the history, writes answer `1`, reads answer `7`. -/
def okEnv : Env Int Int Int String where
  createRes := fun tr _ => Except.ok tr.length
  putRes := fun _ _ _ _ _ => Except.ok 1
  getRes := fun _ _ _ => Except.ok 7

/-- An external library whose handle constructor always raises. -/
def failEnv : Env Int Int Int String where
  createRes := fun _ n => Except.error ("cannot connect " ++ n)
  putRes := fun _ _ _ _ _ => Except.ok 1
  getRes := fun _ _ _ => Except.ok 7

/-- The documentation scenario: `Device("13IDC:str:", attrs=("EraseStart","StopAll"))`
run against the always-succeeding external library. -/
def scenarioInit : Except String Device × List (Event Int) :=
  Device.init okEnv [] (some "13IDC:str:") (some ["EraseStart", "StopAll"])

/-- The trace of external calls of the documentation scenario:
construct the device, then `put("EraseStart", 1)`, then `get("mca1")`, each
with the Python default arguments. -/
def scenarioTrace : List (Event Int) :=
  match scenarioInit with
  | (Except.error _, tr) => tr
  | (Except.ok d, tr) =>
    match d.putDefault okEnv tr "EraseStart" (1 : Int) with
    | (_, d1, tr1) => (d1.getDefault okEnv tr1 "mca1").2.2

/-- The device state reached by `Device.init okEnv [] (some "P:") (some ["a"])`:
the attribute `a` is already preloaded into the cache. -/
def preDevice : Device := { pfx := some "P:", pvs := [("P:a", 0)] }

/-- The trace of external calls made while `preDevice` was constructed. -/
def preTrace : List (Event Int) := [Event.create "P:a"]

theorem lookupName_append_some {l1 l2 : List (String × Nat)} {n : String} {h : Nat}
    (hl : lookupName n l1 = some h) : lookupName n (l1 ++ l2) = some h := by
  induction l1 with
  | nil => simp [lookupName] at hl
  | cons kv rest ih =>
    obtain ⟨k, v⟩ := kv
    by_cases hk : n = k
    · simpa [lookupName, hk] using hl
    · rw [lookupName] at hl
      simp only [hk, if_false] at hl
      simpa [lookupName, hk] using ih hl

theorem lookupName_append_none {l1 l2 : List (String × Nat)} {n : String}
    (hl : lookupName n l1 = none) : lookupName n (l1 ++ l2) = lookupName n l2 := by
  induction l1 with
  | nil => simp
  | cons kv rest ih =>
    obtain ⟨k, v⟩ := kv
    by_cases hk : n = k
    · simp [lookupName, hk] at hl
    · rw [lookupName] at hl
      simp only [hk, if_false] at hl
      simpa [lookupName, hk] using ih hl

theorem lookupName_append_self {l : List (String × Nat)} {n : String} (h : Nat)
    (hl : lookupName n l = none) : lookupName n (l ++ [(n, h)]) = some h := by
  rw [lookupName_append_none hl]
  simp [lookupName]

theorem lookupName_append_ne {l : List (String × Nat)} {n m : String} (h : Nat)
    (hnm : n ≠ m) : lookupName n (l ++ [(m, h)]) = lookupName n l := by
  induction l with
  | nil => simp [lookupName, hnm]
  | cons kv rest ih =>
    obtain ⟨k, v⟩ := kv
    by_cases hk : n = k
    · simp [lookupName, hk]
    · simp [lookupName, hk, ih]

theorem lookupName_none_not_mem {l : List (String × Nat)} {n : String}
    (hl : lookupName n l = none) : n ∉ l.map Prod.fst := by
  induction l with
  | nil => simp
  | cons kv rest ih =>
    obtain ⟨k, v⟩ := kv
    by_cases hk : n = k
    · simp [lookupName, hk] at hl
    · rw [lookupName] at hl
      simp only [hk, if_false] at hl
      simp [hk, ih hl]

theorem countCreate_append {V : Type} (n : String) (l1 l2 : List (Event V)) :
    countCreate n (l1 ++ l2) = countCreate n l1 + countCreate n l2 := by
  induction l1 with
  | nil => simp [countCreate]
  | cons ev rest ih => cases ev <;> simp [countCreate, ih, Nat.add_assoc]

theorem PV_cached {V R G E : Type} (env : Env V R G E) (d : Device) (tr : List (Event V))
    (attr : String) (h : Nat) (hc : lookupName (d.fullName attr) d.pvs = some h) :
    d.PV env tr attr = (Except.ok h, d, tr) := by
  simp only [Device.PV, hc]

theorem PV_new_ok {V R G E : Type} (env : Env V R G E) (d : Device) (tr : List (Event V))
    (attr : String) (h : Nat) (hc : lookupName (d.fullName attr) d.pvs = none)
    (he : env.createRes tr (d.fullName attr) = Except.ok h) :
    d.PV env tr attr = (Except.ok h, { d with pvs := d.pvs ++ [(d.fullName attr, h)] },
      tr ++ [Event.create (d.fullName attr)]) := by
  simp only [Device.PV, hc, he]

theorem PV_new_err {V R G E : Type} (env : Env V R G E) (d : Device) (tr : List (Event V))
    (attr : String) (e : E) (hc : lookupName (d.fullName attr) d.pvs = none)
    (he : env.createRes tr (d.fullName attr) = Except.error e) :
    d.PV env tr attr = (Except.error e, d, tr ++ [Event.create (d.fullName attr)]) := by
  simp only [Device.PV, hc, he]

theorem fullName_mk (pfx : Option String) (l1 l2 : List (String × Nat)) (attr : String) :
    Device.fullName { pfx := pfx, pvs := l1 } attr
      = Device.fullName { pfx := pfx, pvs := l2 } attr := rfl

theorem PV_pfx {V R G E : Type} (env : Env V R G E) (d : Device) (tr : List (Event V))
    (attr : String) : (d.PV env tr attr).2.1.pfx = d.pfx := by
  rcases hc : lookupName (d.fullName attr) d.pvs with _ | h
  · rcases he : env.createRes tr (d.fullName attr) with e | h
    · rw [PV_new_err env d tr attr e hc he]
    · rw [PV_new_ok env d tr attr h hc he]
  · rw [PV_cached env d tr attr h hc]

theorem PV_pvs_mono {V R G E : Type} (env : Env V R G E) (d : Device) (tr : List (Event V))
    (attr : String) : ∃ tl, (d.PV env tr attr).2.1.pvs = d.pvs ++ tl := by
  rcases hc : lookupName (d.fullName attr) d.pvs with _ | h
  · rcases he : env.createRes tr (d.fullName attr) with e | h
    · exact ⟨[], by rw [PV_new_err env d tr attr e hc he]; simp⟩
    · exact ⟨[(d.fullName attr, h)], by rw [PV_new_ok env d tr attr h hc he]⟩
  · exact ⟨[], by rw [PV_cached env d tr attr h hc]; simp⟩

theorem PV_preserves_lookup {V R G E : Type} (env : Env V R G E) (d : Device)
    (tr : List (Event V)) (attr n : String) (h : Nat)
    (hl : lookupName n d.pvs = some h) :
    lookupName n (d.PV env tr attr).2.1.pvs = some h := by
  obtain ⟨tl, htl⟩ := PV_pvs_mono env d tr attr
  rw [htl]
  exact lookupName_append_some hl

theorem PV_ok_lookup {V R G E : Type} (env : Env V R G E) (d : Device) (tr : List (Event V))
    (attr : String) (h : Nat) (hok : (d.PV env tr attr).1 = Except.ok h) :
    lookupName (d.fullName attr) (d.PV env tr attr).2.1.pvs = some h := by
  rcases hc : lookupName (d.fullName attr) d.pvs with _ | h0
  · rcases he : env.createRes tr (d.fullName attr) with e | h0
    · rw [PV_new_err env d tr attr e hc he] at hok
      exact absurd hok (by simp)
    · rw [PV_new_ok env d tr attr h0 hc he] at hok ⊢
      simp only [Except.ok.injEq] at hok
      subst hok
      exact lookupName_append_self h0 hc
  · rw [PV_cached env d tr attr h0 hc] at hok ⊢
    simp only [Except.ok.injEq] at hok
    subst hok
    exact hc

theorem put_dev_eq_PV_dev {V R G E : Type} (env : Env V R G E) (d : Device)
    (tr : List (Event V)) (attr : String) (v : V) (w : Bool) (t : Rat) :
    (d.put env tr attr v w t).2.1 = (d.PV env tr attr).2.1 := by
  rcases hpv : d.PV env tr attr with ⟨r, d1, tr1⟩
  cases r <;> simp [Device.put, hpv]

theorem get_dev_eq_PV_dev {V R G E : Type} (env : Env V R G E) (d : Device)
    (tr : List (Event V)) (attr : String) (s : Bool) :
    (d.get env tr attr s).2.1 = (d.PV env tr attr).2.1 := by
  rcases hpv : d.PV env tr attr with ⟨r, d1, tr1⟩
  cases r <;> simp [Device.get, hpv]

theorem fullName_congr {d1 d2 : Device} (h : d1.pfx = d2.pfx) (a : String) :
    d1.fullName a = d2.fullName a := by
  unfold Device.fullName
  rw [h]

theorem initPVs_ok {V R G E : Type} (env : Env V R G E) :
    ∀ (l : List String) (d : Device) (tr : List (Event V)) (d1 : Device)
      (tr1 : List (Event V)),
    initPVs env d tr l = (Except.ok (), d1, tr1) →
    d1.pfx = d.pfx ∧
    (∀ n h, lookupName n d.pvs = some h → lookupName n d1.pvs = some h) ∧
    (∀ a ∈ l, (lookupName (d.fullName a) d1.pvs).isSome) := by
  intro l
  induction l with
  | nil =>
    intro d tr d1 tr1 hin
    simp only [initPVs, Prod.mk.injEq, Except.ok.injEq] at hin
    obtain ⟨-, hd, htr⟩ := hin
    subst hd
    exact ⟨rfl, fun n h hl => hl, by simp⟩
  | cons a rest ih =>
    intro d tr d1 tr1 hin
    rcases hpv : d.PV env tr a with ⟨r, d2, tr2⟩
    cases r with
    | error e =>
      rw [initPVs, hpv] at hin
      simp at hin
    | ok u =>
      rw [initPVs, hpv] at hin
      obtain ⟨hpfx, hpres, hmem⟩ := ih d2 tr2 d1 tr1 hin
      have hd2pfx : d2.pfx = d.pfx := by
        have := PV_pfx env d tr a
        rw [hpv] at this
        exact this
      refine ⟨hpfx.trans hd2pfx, ?_, ?_⟩
      · intro n h hl
        have h2 : lookupName n d2.pvs = some h := by
          have := PV_preserves_lookup env d tr a n h hl
          rw [hpv] at this
          exact this
        exact hpres n h h2
      · intro a2 ha2
        rcases List.mem_cons.mp ha2 with ha2 | ha2
        · subst ha2
          have hok : (d.PV env tr a2).1 = Except.ok u := by rw [hpv]
          have hlk := PV_ok_lookup env d tr a2 u hok
          rw [hpv] at hlk
          have := hpres (d.fullName a2) u hlk
          simp [this]
        · have := hmem a2 ha2
          rwa [fullName_congr hd2pfx a2] at this

/-- C1: `Device.PV` requests a handle only for exactly the fully-qualified
name — the supplied `attr` prepended with the device's stored value of
`self.__prefix__` when one was supplied, and `attr` verbatim when it is
`None`; in the documentation scenario with the always-succeeding external
library, `Device("13IDC:str:", attrs=("EraseStart","StopAll"))` followed by
`put("EraseStart", 1)` and `get("mca1")` produces exactly the external calls
creating `13IDC:str:EraseStart` and `13IDC:str:StopAll`, writing `1` through
the first handle, creating `13IDC:str:mca1` and reading through its
handle. -/
theorem PV_requests_exactly_prefixed_name :
    (∀ (V R G E : Type) (env : Env V R G E) (d : Device) (tr : List (Event V))
       (attr : String),
      (d.PV env tr attr).2.2 = tr ∨
      (d.PV env tr attr).2.2 = tr ++ [Event.create (d.fullName attr)]) ∧
    (∀ (p attr : String) (l : List (String × Nat)),
      Device.fullName { pfx := some p, pvs := l } attr = p ++ attr) ∧
    (∀ (attr : String) (l : List (String × Nat)),
      Device.fullName { pfx := none, pvs := l } attr = attr) ∧
    scenarioTrace = [Event.create "13IDC:str:EraseStart", Event.create "13IDC:str:StopAll",
      Event.write 0 1 false 10, Event.create "13IDC:str:mca1", Event.read 3 false] := by
  refine ⟨?_, fun p attr l => rfl, fun attr l => rfl, by decide⟩
  intro V R G E env d tr attr
  rcases hc : lookupName (d.fullName attr) d.pvs with _ | h
  · rcases he : env.createRes tr (d.fullName attr) with e | h
    · right
      rw [PV_new_err env d tr attr e hc he]
    · right
      rw [PV_new_ok env d tr attr h hc he]
  · left
    rw [PV_cached env d tr attr h hc]

/-- C2 counterexample: for the reachable device state `preDevice`, whose
attribute `a` was preloaded at construction, resolving `a` twice returns the
identical cached handle both times, but the external handle constructor is
invoked zero times — not exactly once — for the name `P:a` across the two
calls. -/
theorem PV_twice_counterexample :
    Device.init okEnv [] (some "P:") (some ["a"]) = (Except.ok preDevice, preTrace) ∧
    (preDevice.PV okEnv preTrace "a").1 = Except.ok 0 ∧
    ((preDevice.PV okEnv preTrace "a").2.1.PV okEnv
      (preDevice.PV okEnv preTrace "a").2.2 "a").1 = Except.ok 0 ∧
    ¬ (countCreate "P:a"
        ((preDevice.PV okEnv preTrace "a").2.1.PV okEnv
          (preDevice.PV okEnv preTrace "a").2.2 "a").2.2
       = countCreate "P:a" preTrace + 1) := by decide

/-- C2 amended: whenever the first `Device.PV` call for `attr` returns a
handle, the second call with the same `attr` returns the identical handle and
changes neither the device nor the trace, and across the two calls the
external constructor is invoked for the fully-qualified name exactly once
when the name was not yet cached and zero times when it was. -/
theorem PV_twice_memoizes {V R G E : Type} (env : Env V R G E) (d : Device)
    (tr : List (Event V)) (attr : String) (h : Nat)
    (hok : (d.PV env tr attr).1 = Except.ok h) :
    ((d.PV env tr attr).2.1.PV env (d.PV env tr attr).2.2 attr).1 = Except.ok h ∧
    ((d.PV env tr attr).2.1.PV env (d.PV env tr attr).2.2 attr).2.1
      = (d.PV env tr attr).2.1 ∧
    ((d.PV env tr attr).2.1.PV env (d.PV env tr attr).2.2 attr).2.2
      = (d.PV env tr attr).2.2 ∧
    countCreate (d.fullName attr)
        ((d.PV env tr attr).2.1.PV env (d.PV env tr attr).2.2 attr).2.2
      = countCreate (d.fullName attr) tr
        + (if lookupName (d.fullName attr) d.pvs = none then 1 else 0) := by
  rcases hc : lookupName (d.fullName attr) d.pvs with _ | h0
  · rcases he : env.createRes tr (d.fullName attr) with e | h0
    · rw [PV_new_err env d tr attr e hc he] at hok
      exact absurd hok (by simp)
    · have hpv := PV_new_ok env d tr attr h0 hc he
      rw [hpv] at hok
      simp only [Except.ok.injEq] at hok
      subst hok
      rw [hpv]
      have hc2 : lookupName
          (Device.fullName { d with pvs := d.pvs ++ [(d.fullName attr, h0)] } attr)
          ({ d with pvs := d.pvs ++ [(d.fullName attr, h0)] } : Device).pvs = some h0 := by
        have hf : Device.fullName { d with pvs := d.pvs ++ [(d.fullName attr, h0)] } attr
            = d.fullName attr := rfl
        rw [hf]
        exact lookupName_append_self h0 hc
      rw [PV_cached env _ _ attr h0 hc2]
      refine ⟨rfl, rfl, rfl, ?_⟩
      simp [countCreate_append, countCreate]
  · have hpv := PV_cached env d tr attr h0 hc
    rw [hpv] at hok
    simp only [Except.ok.injEq] at hok
    subst hok
    rw [hpv, PV_cached env d tr attr h0 hc]
    simp [hc]

/-- C2 amended witness: resolving a fresh attribute twice on an empty device
under the always-succeeding external library creates the handle exactly
once. -/
theorem PV_twice_memoizes_witness :
    countCreate (Device.fullName (Device.mk (some "P:") []) "a")
        (((Device.mk (some "P:") []).PV okEnv [] "a").2.1.PV okEnv
          ((Device.mk (some "P:") []).PV okEnv [] "a").2.2 "a").2.2
      = countCreate (Device.fullName (Device.mk (some "P:") []) "a")
          ([] : List (Event Int))
        + (if lookupName (Device.fullName (Device.mk (some "P:") []) "a")
             (Device.mk (some "P:") []).pvs = none then 1 else 0) :=
  (PV_twice_memoizes okEnv (Device.mk (some "P:") []) [] "a" 0 (by decide)).2.2.2

/-- C3: `Device.put` forwards the value, the wait flag and the timeout
unchanged to the resolved handle's write operation and returns exactly that
operation's outcome; omitting the optional arguments is the same as passing
`wait=False, timeout=10.0`. -/
theorem put_forwards_arguments {V R G E : Type} (env : Env V R G E) (d : Device)
    (tr : List (Event V)) (attr : String) (v : V) (w : Bool) (t : Rat) (h : Nat)
    (hok : (d.PV env tr attr).1 = Except.ok h) :
    (d.put env tr attr v w t).1 = env.putRes (d.PV env tr attr).2.2 h v w t ∧
    (d.put env tr attr v w t).2.2
      = (d.PV env tr attr).2.2 ++ [Event.write h v w t] ∧
    d.putDefault env tr attr v = d.put env tr attr v false 10 := by
  rcases hpv : d.PV env tr attr with ⟨r, d1, tr1⟩
  rw [hpv] at hok
  simp only at hok
  subst hok
  exact ⟨by simp [Device.put, hpv], by simp [Device.put, hpv], rfl⟩

/-- C3 witness: writing `5` with `wait=true, timeout=3` on a fresh attribute
reaches the external write operation with exactly those arguments. -/
theorem put_forwards_arguments_witness :
    ((Device.mk (some "P:") []).put okEnv [] "a" (5 : Int) true 3).1
      = okEnv.putRes ((Device.mk (some "P:") []).PV okEnv [] "a").2.2 0 5 true 3 :=
  (put_forwards_arguments okEnv (Device.mk (some "P:") []) [] "a" 5 true 3 0 (by decide)).1

/-- C4: `Device.get` forwards the `as_string` flag unchanged to the resolved
handle's read operation and returns exactly that operation's outcome;
omitting the optional argument is the same as passing `as_string=False`. -/
theorem get_forwards_arguments {V R G E : Type} (env : Env V R G E) (d : Device)
    (tr : List (Event V)) (attr : String) (s : Bool) (h : Nat)
    (hok : (d.PV env tr attr).1 = Except.ok h) :
    (d.get env tr attr s).1 = env.getRes (d.PV env tr attr).2.2 h s ∧
    (d.get env tr attr s).2.2 = (d.PV env tr attr).2.2 ++ [Event.read h s] ∧
    d.getDefault env tr attr = d.get env tr attr false := by
  rcases hpv : d.PV env tr attr with ⟨r, d1, tr1⟩
  rw [hpv] at hok
  simp only at hok
  subst hok
  exact ⟨by simp [Device.get, hpv], by simp [Device.get, hpv], rfl⟩

/-- C4 witness: reading with `as_string=true` on a fresh attribute reaches
the external read operation with exactly that flag. -/
theorem get_forwards_arguments_witness :
    ((Device.mk (some "P:") []).get okEnv [] "a" true).1
      = okEnv.getRes ((Device.mk (some "P:") []).PV okEnv [] "a").2.2 0 true :=
  (get_forwards_arguments okEnv (Device.mk (some "P:") []) [] "a" true 0 (by decide)).1

/-- C5: when construction with a prefix and two listed attributes completes,
the cache already holds handles for both prefixed names before any `get` or
`put`; construction with `attrs` absent or an empty list succeeds and leaves
the cache empty. -/
theorem init_preloads_attrs {V R G E : Type} (env : Env V R G E) (tr : List (Event V))
    (p a1 a2 : String) (d1 : Device) (tr1 : List (Event V))
    (hok : Device.init env tr (some p) (some [a1, a2]) = (Except.ok d1, tr1)) :
    (lookupName (p ++ a1) d1.pvs).isSome ∧
    (lookupName (p ++ a2) d1.pvs).isSome ∧
    d1.pfx = some p ∧
    (∀ q : Option String, Device.init env tr q none
        = (Except.ok { pfx := q, pvs := [] }, tr)) ∧
    (∀ q : Option String, Device.init env tr q (some [])
        = (Except.ok { pfx := q, pvs := [] }, tr)) := by
  rcases hi : initPVs env { pfx := some p, pvs := [] } tr [a1, a2] with ⟨u, d2, tr2⟩
  simp only [Device.init, hi] at hok
  cases u with
  | error e => simp at hok
  | ok u0 =>
    simp only [Prod.mk.injEq, Except.ok.injEq] at hok
    obtain ⟨hd, htr⟩ := hok
    subst hd
    obtain ⟨hpfx, hpres, hmem⟩ :=
      initPVs_ok env [a1, a2] { pfx := some p, pvs := [] } tr d2 tr2
        (by cases u0; exact hi)
    exact ⟨hmem a1 (by simp), hmem a2 (by simp), hpfx, fun q => rfl, fun q => rfl⟩

/-- C5 witness: constructing with prefix `P:` and attributes `a`, `b` under
the always-succeeding external library preloads the handle of `P:a`. -/
theorem init_preloads_attrs_witness :
    (lookupName ("P:" ++ "a")
      (Device.mk (some "P:") [("P:a", 0), ("P:b", 1)]).pvs).isSome :=
  (init_preloads_attrs okEnv [] "P:" "a" "b"
    (Device.mk (some "P:") [("P:a", 0), ("P:b", 1)])
    [Event.create "P:a", Event.create "P:b"] (by decide)).1

/-- C6: the wrapper raises no errors of its own and translates none: every
error returned by `PV`, `put` or `get` is exactly the error the external
library produced at handle construction or at the forwarded read/write, and
when the external library never fails the wrapper's operations never fail. -/
theorem errors_propagate_unchanged {V R G E : Type} (env : Env V R G E) (d : Device)
    (tr : List (Event V)) (attr : String) (v : V) (w : Bool) (t : Rat) (s : Bool) :
    (∀ e, (d.PV env tr attr).1 = Except.error e →
      env.createRes tr (d.fullName attr) = Except.error e) ∧
    (∀ e, (d.put env tr attr v w t).1 = Except.error e →
      env.createRes tr (d.fullName attr) = Except.error e ∨
      ∃ h, (d.PV env tr attr).1 = Except.ok h ∧
        env.putRes (d.PV env tr attr).2.2 h v w t = Except.error e) ∧
    (∀ e, (d.get env tr attr s).1 = Except.error e →
      env.createRes tr (d.fullName attr) = Except.error e ∨
      ∃ h, (d.PV env tr attr).1 = Except.ok h ∧
        env.getRes (d.PV env tr attr).2.2 h s = Except.error e) ∧
    ((∀ tr2 n, ∃ h, env.createRes tr2 n = Except.ok h) →
     (∀ tr2 h2 v2 w2 t2, ∃ r, env.putRes tr2 h2 v2 w2 t2 = Except.ok r) →
     (∀ tr2 h2 s2, ∃ g, env.getRes tr2 h2 s2 = Except.ok g) →
     (∃ h, (d.PV env tr attr).1 = Except.ok h) ∧
     (∃ r, (d.put env tr attr v w t).1 = Except.ok r) ∧
     (∃ g, (d.get env tr attr s).1 = Except.ok g)) := by
  have hcreate : ∀ e, (d.PV env tr attr).1 = Except.error e →
      env.createRes tr (d.fullName attr) = Except.error e := by
    intro e hE
    rcases hc : lookupName (d.fullName attr) d.pvs with _ | h
    · rcases he : env.createRes tr (d.fullName attr) with e2 | h
      · rw [PV_new_err env d tr attr e2 hc he] at hE
        simp only [Except.error.injEq] at hE
        subst hE
        rfl
      · rw [PV_new_ok env d tr attr h hc he] at hE
        simp at hE
    · rw [PV_cached env d tr attr h hc] at hE
      simp at hE
  refine ⟨hcreate, ?_, ?_, ?_⟩
  · intro e hE
    rcases hpv : d.PV env tr attr with ⟨r, d2, tr2⟩
    cases r with
    | error e2 =>
      have h2 : (d.put env tr attr v w t).1 = Except.error e2 := by
        simp [Device.put, hpv]
      rw [h2] at hE
      simp only [Except.error.injEq] at hE
      subst hE
      exact Or.inl (hcreate e2 (by rw [hpv]))
    | ok h =>
      have h2 : (d.put env tr attr v w t).1 = env.putRes tr2 h v w t := by
        simp [Device.put, hpv]
      rw [h2] at hE
      exact Or.inr ⟨h, rfl, hE⟩
  · intro e hE
    rcases hpv : d.PV env tr attr with ⟨r, d2, tr2⟩
    cases r with
    | error e2 =>
      have h2 : (d.get env tr attr s).1 = Except.error e2 := by
        simp [Device.get, hpv]
      rw [h2] at hE
      simp only [Except.error.injEq] at hE
      subst hE
      exact Or.inl (hcreate e2 (by rw [hpv]))
    | ok h =>
      have h2 : (d.get env tr attr s).1 = env.getRes tr2 h s := by
        simp [Device.get, hpv]
      rw [h2] at hE
      exact Or.inr ⟨h, rfl, hE⟩
  · intro hC hP hG
    have hPVok : ∃ h, (d.PV env tr attr).1 = Except.ok h := by
      rcases hc : lookupName (d.fullName attr) d.pvs with _ | h
      · obtain ⟨h, he⟩ := hC tr (d.fullName attr)
        exact ⟨h, by rw [PV_new_ok env d tr attr h hc he]⟩
      · exact ⟨h, by rw [PV_cached env d tr attr h hc]⟩
    obtain ⟨h, hok⟩ := hPVok
    rcases hpv : d.PV env tr attr with ⟨r, d2, tr2⟩
    rw [hpv] at hok
    simp only at hok
    subst hok
    refine ⟨⟨h, rfl⟩, ?_, ?_⟩
    · obtain ⟨r2, hr2⟩ := hP tr2 h v w t
      exact ⟨r2, by simp [Device.put, hpv, hr2]⟩
    · obtain ⟨g2, hg2⟩ := hG tr2 h s
      exact ⟨g2, by simp [Device.get, hpv, hg2]⟩

/-- C6 witness: a failing external handle constructor's error reaches the
caller of `PV` verbatim. -/
theorem errors_propagate_unchanged_witness :
    failEnv.createRes [] ((Device.mk none []).fullName "xyz")
      = Except.error "cannot connect xyz" :=
  (errors_propagate_unchanged failEnv (Device.mk none []) [] "xyz" (0 : Int)
      false 10 false).1 "cannot connect xyz" (by decide)

/-- C7: the cache only grows — each of `PV`, `put` and `get` leaves the
existing cache a prefix of the new one, every existing entry keeps its
handle, and distinctness of the cached fully-qualified names is
preserved. -/
theorem cache_only_grows {V R G E : Type} (env : Env V R G E) (d : Device)
    (tr : List (Event V)) (attr : String) (v : V) (w : Bool) (t : Rat) (s : Bool) :
    (∃ tl, (d.PV env tr attr).2.1.pvs = d.pvs ++ tl) ∧
    (∃ tl, (d.put env tr attr v w t).2.1.pvs = d.pvs ++ tl) ∧
    (∃ tl, (d.get env tr attr s).2.1.pvs = d.pvs ++ tl) ∧
    (∀ n h, lookupName n d.pvs = some h →
      lookupName n (d.PV env tr attr).2.1.pvs = some h ∧
      lookupName n (d.put env tr attr v w t).2.1.pvs = some h ∧
      lookupName n (d.get env tr attr s).2.1.pvs = some h) ∧
    ((d.pvs.map Prod.fst).Nodup → ((d.PV env tr attr).2.1.pvs.map Prod.fst).Nodup) := by
  obtain ⟨tl, htl⟩ := PV_pvs_mono env d tr attr
  have hput := put_dev_eq_PV_dev env d tr attr v w t
  have hget := get_dev_eq_PV_dev env d tr attr s
  refine ⟨⟨tl, htl⟩, ⟨tl, by rw [hput, htl]⟩, ⟨tl, by rw [hget, htl]⟩, ?_, ?_⟩
  · intro n h hl
    have h1 := PV_preserves_lookup env d tr attr n h hl
    exact ⟨h1, by rw [hput]; exact h1, by rw [hget]; exact h1⟩
  · intro hnd
    rcases hc : lookupName (d.fullName attr) d.pvs with _ | h
    · rcases he : env.createRes tr (d.fullName attr) with e | h
      · rw [PV_new_err env d tr attr e hc he]
        exact hnd
      · rw [PV_new_ok env d tr attr h hc he]
        have hnot := lookupName_none_not_mem hc
        simp [List.nodup_append, hnd, hnot]
    · rw [PV_cached env d tr attr h hc]
      exact hnd

/-- C7 witness: a cached entry for another attribute keeps its handle across
a `PV` call that creates a new entry. -/
theorem cache_only_grows_witness :
    lookupName "P:a" ((Device.mk (some "P:") [("P:a", 0)]).PV okEnv [] "b").2.1.pvs
      = some 0 :=
  ((cache_only_grows okEnv (Device.mk (some "P:") [("P:a", 0)]) [] "b" (1 : Int)
      false 10 false).2.2.2.1 "P:a" 0 (by decide)).1

/-- C8: if the external handle constructor raises while `PV` is creating a
handle for a not-yet-cached name, the exception propagates, the device is
left completely unchanged — no partial cache entry — and a subsequent `PV`
call with the same attribute attempts creation again, issuing a second
external constructor call for the same name. -/
theorem PV_create_error_leaves_cache_unchanged {V R G E : Type} (env : Env V R G E)
    (d : Device) (tr : List (Event V)) (attr : String) (e : E)
    (hc : lookupName (d.fullName attr) d.pvs = none)
    (he : env.createRes tr (d.fullName attr) = Except.error e) :
    d.PV env tr attr = (Except.error e, d, tr ++ [Event.create (d.fullName attr)]) ∧
    ((d.PV env tr attr).2.1.PV env (d.PV env tr attr).2.2 attr).2.2
      = tr ++ [Event.create (d.fullName attr)] ++ [Event.create (d.fullName attr)] := by
  have hpv := PV_new_err env d tr attr e hc he
  refine ⟨hpv, ?_⟩
  rw [hpv]
  rcases he2 : env.createRes (tr ++ [Event.create (d.fullName attr)]) (d.fullName attr)
    with e2 | h2
  · rw [PV_new_err env d _ attr e2 hc he2]
  · rw [PV_new_ok env d _ attr h2 hc he2]

/-- C8 witness: with an always-failing constructor, resolving a fresh
attribute raises and stores nothing. -/
theorem PV_create_error_leaves_cache_unchanged_witness :
    (Device.mk (some "P:") []).PV failEnv [] "a"
      = (Except.error "cannot connect P:a", Device.mk (some "P:") [],
         ([Event.create "P:a"] : List (Event Int))) :=
  (PV_create_error_leaves_cache_unchanged failEnv (Device.mk (some "P:") []) [] "a"
    "cannot connect P:a" (by decide) (by decide)).1

/-- C9: a device whose stored prefix is the empty string behaves observably
like one whose prefix is absent: the same fully-qualified name, and `PV`,
`put` and `get` return the same results, build the same cache entries and
make the same external calls. -/
theorem emptyString_pfx_equiv_none {V R G E : Type} (env : Env V R G E)
    (tr : List (Event V)) (attr : String) (l : List (String × Nat)) (v : V)
    (w : Bool) (t : Rat) (s : Bool) :
    Device.fullName (Device.mk (some "") l) attr
      = Device.fullName (Device.mk none l) attr ∧
    ((Device.mk (some "") l).PV env tr attr).1
      = ((Device.mk none l).PV env tr attr).1 ∧
    ((Device.mk (some "") l).PV env tr attr).2.1.pvs
      = ((Device.mk none l).PV env tr attr).2.1.pvs ∧
    ((Device.mk (some "") l).PV env tr attr).2.2
      = ((Device.mk none l).PV env tr attr).2.2 ∧
    ((Device.mk (some "") l).put env tr attr v w t).1
      = ((Device.mk none l).put env tr attr v w t).1 ∧
    ((Device.mk (some "") l).put env tr attr v w t).2.1.pvs
      = ((Device.mk none l).put env tr attr v w t).2.1.pvs ∧
    ((Device.mk (some "") l).put env tr attr v w t).2.2
      = ((Device.mk none l).put env tr attr v w t).2.2 ∧
    ((Device.mk (some "") l).get env tr attr s).1
      = ((Device.mk none l).get env tr attr s).1 ∧
    ((Device.mk (some "") l).get env tr attr s).2.1.pvs
      = ((Device.mk none l).get env tr attr s).2.1.pvs ∧
    ((Device.mk (some "") l).get env tr attr s).2.2
      = ((Device.mk none l).get env tr attr s).2.2 := by
  have hf1 : Device.fullName (Device.mk (some "") l) attr = attr := by
    show ("" : String) ++ attr = attr
    simp
  have hf0 : Device.fullName (Device.mk none l) attr = attr := rfl
  rcases hc : lookupName attr l with _ | h
  · rcases he : env.createRes tr attr with e | h
    · have h1 := PV_new_err env (Device.mk (some "") l) tr attr e
        (by rw [hf1]; exact hc) (by rw [hf1]; exact he)
      have h0 := PV_new_err env (Device.mk none l) tr attr e
        (by rw [hf0]; exact hc) (by rw [hf0]; exact he)
      rw [hf1] at h1
      rw [hf0] at h0
      simp [h1, h0, hf1, hf0, Device.put, Device.get]
    · have h1 := PV_new_ok env (Device.mk (some "") l) tr attr h
        (by rw [hf1]; exact hc) (by rw [hf1]; exact he)
      have h0 := PV_new_ok env (Device.mk none l) tr attr h
        (by rw [hf0]; exact hc) (by rw [hf0]; exact he)
      rw [hf1] at h1
      rw [hf0] at h0
      simp [h1, h0, hf1, hf0, Device.put, Device.get]
  · have h1 := PV_cached env (Device.mk (some "") l) tr attr h (by rw [hf1]; exact hc)
    have h0 := PV_cached env (Device.mk none l) tr attr h (by rw [hf0]; exact hc)
    simp [h1, h0, hf1, hf0, Device.put, Device.get]

/-- C10: each of `PV`, `put` and `get` never changes the stored prefix and
touches at most the single cache entry of the resolved fully-qualified name:
the lookup of every other name is untouched. -/
theorem ops_touch_only_own_entry {V R G E : Type} (env : Env V R G E) (d : Device)
    (tr : List (Event V)) (attr : String) (v : V) (w : Bool) (t : Rat) (s : Bool) :
    (d.PV env tr attr).2.1.pfx = d.pfx ∧
    (d.put env tr attr v w t).2.1.pfx = d.pfx ∧
    (d.get env tr attr s).2.1.pfx = d.pfx ∧
    (∀ n, n ≠ d.fullName attr →
      lookupName n (d.PV env tr attr).2.1.pvs = lookupName n d.pvs ∧
      lookupName n (d.put env tr attr v w t).2.1.pvs = lookupName n d.pvs ∧
      lookupName n (d.get env tr attr s).2.1.pvs = lookupName n d.pvs) := by
  have hput := put_dev_eq_PV_dev env d tr attr v w t
  have hget := get_dev_eq_PV_dev env d tr attr s
  have hpfx := PV_pfx env d tr attr
  have hframe : ∀ n, n ≠ d.fullName attr →
      lookupName n (d.PV env tr attr).2.1.pvs = lookupName n d.pvs := by
    intro n hn
    rcases hc : lookupName (d.fullName attr) d.pvs with _ | h
    · rcases he : env.createRes tr (d.fullName attr) with e | h
      · rw [PV_new_err env d tr attr e hc he]
      · rw [PV_new_ok env d tr attr h hc he]
        exact lookupName_append_ne h hn
    · rw [PV_cached env d tr attr h hc]
  exact ⟨hpfx, by rw [hput]; exact hpfx, by rw [hget]; exact hpfx,
    fun n hn => ⟨hframe n hn, by rw [hput]; exact hframe n hn,
      by rw [hget]; exact hframe n hn⟩⟩

/-- C10 witness: resolving attribute `b` leaves the unrelated cache entry
`Q` untouched. -/
theorem ops_touch_only_own_entry_witness :
    lookupName "Q" ((Device.mk (some "P:") [("Q", 5)]).PV okEnv [] "a").2.1.pvs
      = lookupName "Q" (Device.mk (some "P:") [("Q", 5)]).pvs :=
  ((ops_touch_only_own_entry okEnv (Device.mk (some "P:") [("Q", 5)]) [] "a"
      (0 : Int) false 10 false).2.2.2 "Q" (by decide)).1
